import Mathlib

/-!
Verification of the wave/combat/economy logic of the game repository
(src/src). Each Rust subsystem the claims touch is shallowly embedded:
the inventory map becomes a function from items to optional counts,
entity references become natural numbers with explicit lookup functions,
`f32` scalars that only feed control flow (cooldowns, timers, wave
fractions) become rationals, and the 3D vector arithmetic that genuinely
takes square roots (normalisation, norms) is embedded over the reals.
Rust panics (`expect`, unsigned underflow, out-of-bounds indexing) are
modelled as `Option.none`, so a function that returns `none` aborts.
-/

namespace NoComm

/-! ## Inventory (src/src/inventory.rs)

The Rust inventory is a `HashMap<Item, u32>`; we embed it as a function
from the closed item enum to optional counts (`none` = key absent),
which is the same finite map up to iteration order, never relevant here
because `spend_items` iterates over the batch, not over the map. -/

/-- Item enum of src/src/inventory.rs lines 18-23. -/
inductive Item : Type
  | Log
  | Banana
  | Apple
deriving DecidableEq, Repr

instance : Fintype Item where
  elems := {Item.Log, Item.Banana, Item.Apple}
  complete := by intro x; cases x <;> decide

/-- Inventory component, inventory.rs lines 25-28: the item-count map. -/
abbrev Inventory := Item → Option Nat

/-- Inventory::get_item_count, inventory.rs lines 75-77. -/
def getItemCount (inv : Inventory) (item : Item) : Nat :=
  (inv item).getD 0

/-- Inventory::add_item, inventory.rs lines 31-33. -/
def addItem (inv : Inventory) (item : Item) (count : Nat) : Inventory :=
  fun j => if j = item then some ((inv item).getD 0 + count) else inv j

/-- Inventory::spend_item, inventory.rs lines 36-52: checked subtraction on
one entry, pruning the entry when it reaches zero. -/
def spendItem (inv : Inventory) (item : Item) (count : Nat) : Bool × Inventory :=
  match inv item with
  | none => (false, inv)
  | some c =>
    if c < count then (false, inv)
    else
      (true, fun j => if j = item then (if c - count = 0 then none else some (c - count))
                      else inv j)

/-- Commit loop of Inventory::spend_items, inventory.rs lines 59-68.
Each pair is deducted in order; the entry is fetched with
`.expect(..)` (panic when absent, modelled as `none`) and decremented
with unchecked `u32` subtraction (underflow aborts, modelled as `none`);
an entry that reaches zero is removed. -/
def spendItemsCommit (inv : Inventory) : List (Item × Nat) → Option Inventory
  | [] => some inv
  | (item, count) :: rest =>
    match inv item with
    | none => none
    | some c =>
      if c < count then none
      else
        spendItemsCommit
          (fun j => if j = item then (if c - count = 0 then none else some (c - count))
                    else inv j)
          rest

/-- Inventory::spend_items, inventory.rs lines 54-73: check every pair
against the current (unmodified) map, then commit all deductions. -/
def spendItems (inv : Inventory) (batch : List (Item × Nat)) : Option (Bool × Inventory) :=
  if batch.all (fun p => match inv p.1 with
      | some c => decide (p.2 ≤ c)
      | none => false) then
    (spendItemsCommit inv batch).map (fun inv2 => (true, inv2))
  else
    some (false, inv)

/-- First requested count for an item in a batch (the batches the claims
quantify over; total requests per item once keys are distinct). -/
def lookupReq : List (Item × Nat) → Item → Option Nat
  | [], _ => none
  | p :: rest, it => if p.1 = it then some p.2 else lookupReq rest it

theorem lookupReq_eq_none_of_not_mem (batch : List (Item × Nat)) (it : Item)
    (h : it ∉ batch.map Prod.fst) : lookupReq batch it = none := by
  induction batch with
  | nil => rfl
  | cons p rest ih =>
    simp only [List.map_cons, List.mem_cons, not_or] at h
    rw [lookupReq, if_neg (show ¬ p.1 = it from fun hp => h.1 hp.symm)]
    exact ih h.2

theorem spendItems_check_iff (inv : Inventory) (batch : List (Item × Nat)) :
    (batch.all (fun p => match inv p.1 with
      | some c => decide (p.2 ≤ c)
      | none => false) = true) ↔ ∀ p ∈ batch, ∃ c, inv p.1 = some c ∧ p.2 ≤ c := by
  rw [List.all_eq_true]
  constructor
  · intro h p hp
    have := h p hp
    cases hc : inv p.1 with
    | none => rw [hc] at this; exact absurd this (by simp)
    | some c => rw [hc] at this; exact ⟨c, rfl, by simpa using this⟩
  · intro h p hp
    obtain ⟨c, hc, hle⟩ := h p hp
    rw [hc]
    simpa using hle

theorem spendItemsCommit_eq (inv : Inventory) (batch : List (Item × Nat))
    (hnodup : (batch.map Prod.fst).Nodup)
    (havail : ∀ p ∈ batch, ∃ c, inv p.1 = some c ∧ p.2 ≤ c) :
    spendItemsCommit inv batch = some (fun it =>
      match inv it, lookupReq batch it with
      | none, _ => none
      | some c, none => some c
      | some c, some req => if c = req then none else some (c - req)) := by
  induction batch generalizing inv with
  | nil =>
    simp only [spendItemsCommit, lookupReq, Option.some.injEq]
    funext it
    cases inv it <;> rfl
  | cons p rest ih =>
    obtain ⟨item, count⟩ := p
    obtain ⟨c, hc, hle⟩ := havail (item, count) (List.mem_cons_self _ _)
    simp only at hc hle
    simp only [List.map_cons, List.nodup_cons] at hnodup
    have hnotmem : item ∉ rest.map Prod.fst := hnodup.1
    set inv1 : Inventory :=
      fun j => if j = item then (if c - count = 0 then none else some (c - count))
               else inv j with hinv1
    have havail1 : ∀ p ∈ rest, ∃ d, inv1 p.1 = some d ∧ p.2 ≤ d := by
      intro q hq
      obtain ⟨d, hd, hdle⟩ := havail q (List.mem_cons_of_mem _ hq)
      refine ⟨d, ?_, hdle⟩
      have hne : q.1 ≠ item := by
        intro he
        exact hnotmem (he ▸ List.mem_map_of_mem Prod.fst hq)
      rw [hinv1]
      simp only [if_neg hne]
      exact hd
    simp only [spendItemsCommit, hc, if_neg (Nat.not_lt.mpr hle)]
    rw [ih inv1 hnodup.2 havail1]
    congr 1
    funext it
    by_cases hit : it = item
    · subst hit
      have h1 : inv1 it = if c - count = 0 then none else some (c - count) := by
        rw [hinv1]; simp
      have h2 : lookupReq rest it = none := lookupReq_eq_none_of_not_mem rest it hnotmem
      simp only [h1, h2, hc, lookupReq, if_pos rfl]
      by_cases hz : c - count = 0
      · have : c = count := Nat.le_antisymm (Nat.sub_eq_zero_iff_le.mp hz) hle
        simp [hz, this]
      · have : ¬ c = count := by
          intro he; exact hz (by rw [he, Nat.sub_self])
        simp [hz, this]
    · have h1 : inv1 it = inv it := by rw [hinv1]; simp [hit]
      have h2 : lookupReq ((item, count) :: rest) it = lookupReq rest it := by
        simp only [lookupReq]
        exact if_neg (fun he => hit he.symm)
      rw [h1, h2]

/-- C1 (amended): for a batch in which no item occurs twice, spend_items
never aborts, succeeds exactly when every pair's item is present with at
least the requested count, deducts every pair on success (pruning entries
that reach zero), and leaves the inventory unchanged on failure. -/
theorem spend_items_contract (inv : Inventory) (batch : List (Item × Nat))
    (hnodup : (batch.map Prod.fst).Nodup) :
    ∃ ok inv2, spendItems inv batch = some (ok, inv2) ∧
      (ok = true ↔ ∀ p ∈ batch, ∃ c, inv p.1 = some c ∧ p.2 ≤ c) ∧
      (ok = true → ∀ it, inv2 it =
        match inv it, lookupReq batch it with
        | none, _ => none
        | some c, none => some c
        | some c, some req => if c = req then none else some (c - req)) ∧
      (ok = false → inv2 = inv) := by
  by_cases hcheck : ∀ p ∈ batch, ∃ c, inv p.1 = some c ∧ p.2 ≤ c
  · refine ⟨true, (fun it =>
      match inv it, lookupReq batch it with
      | none, _ => none
      | some c, none => some c
      | some c, some req => if c = req then none else some (c - req)), ?_, ?_, ?_, ?_⟩
    · rw [spendItems, if_pos ((spendItems_check_iff inv batch).mpr hcheck),
        spendItemsCommit_eq inv batch hnodup hcheck]
      rfl
    · exact ⟨fun _ => hcheck, fun _ => rfl⟩
    · intro _ it; rfl
    · intro h; exact absurd h (by simp)
  · refine ⟨false, inv, ?_, ?_, ?_, ?_⟩
    · rw [spendItems, if_neg (fun h => hcheck ((spendItems_check_iff inv batch).mp h))]
    · exact ⟨fun h => absurd h (by simp), fun hp => absurd hp hcheck⟩
    · intro h; exact absurd h (by simp)
    · intro _; rfl

/-- Concrete instantiation of the amended C1 contract. -/
theorem spend_items_contract_witness :
    ∃ ok inv2,
      spendItems (fun it => if it = Item.Log then some 2 else none) [(Item.Log, 2)]
        = some (ok, inv2) ∧
      (ok = true ↔ ∀ p ∈ [(Item.Log, 2)], ∃ c,
        (fun it => if it = Item.Log then some 2 else none) p.1 = some c ∧ p.2 ≤ c) ∧
      (ok = true → ∀ it, inv2 it =
        match (fun it => if it = Item.Log then some 2 else none) it,
              lookupReq [(Item.Log, 2)] it with
        | none, _ => none
        | some c, none => some c
        | some c, some req => if c = req then none else some (c - req)) ∧
      (ok = false → inv2 = (fun it => if it = Item.Log then some 2 else none)) :=
  spend_items_contract (fun it => if it = Item.Log then some 2 else none)
    [(Item.Log, 2)] (by decide)

/-- C1 counterexample: against inventory {Log: 2}, the batch
[(Log, 2), (Log, 2)] passes the per-pair availability check that the
claim states (each pair requests 2 of a current count of 2), yet the
call aborts (the commit loop's `.expect` panics after the first pair
prunes the entry); and against an empty inventory a pair requesting 0
of an absent item fails even though its current count (0) is at least
the requested count, falsifying the claimed iff. -/
theorem spend_items_counterexample :
    (∀ p ∈ [(Item.Log, 2), (Item.Log, 2)],
      p.2 ≤ getItemCount (fun it => if it = Item.Log then some 2 else none) p.1) ∧
    spendItems (fun it => if it = Item.Log then some 2 else none)
      [(Item.Log, 2), (Item.Log, 2)] = none ∧
    (0 ≤ getItemCount (fun _ => none) Item.Log ∧
      spendItems (fun _ => none) [(Item.Log, 0)] = some (false, fun _ => none)) := by
  refine ⟨by decide, ?_, by decide, ?_⟩
  · rfl
  · rfl

/-! ## Health (src/src/health.rs)

Health holds `i32` counters; the claims are about the clamping logic,
not 32-bit wraparound, so the counters are embedded as integers. -/

/-- Health component, health.rs lines 6-10. -/
structure Health : Type where
  current : Int
  max : Int
deriving DecidableEq, Repr

/-- Health::new, health.rs lines 99-104. -/
def Health.new (health : Int) : Health :=
  { current := health, max := health }

/-- Health::is_dead, health.rs lines 106-108. -/
def Health.isDead (h : Health) : Bool :=
  decide (h.current ≤ 0)

/-- AddAssign for Health, health.rs lines 132-136: add and clamp upward at
max; this is the single operation the health-application system uses, so a
negative delta is the (downward-unclamped) damage path. -/
def Health.addAssign (h : Health) (rhs : Int) : Health :=
  { current := min (h.current + rhs) h.max, max := h.max }

/-- SubAssign for Health, health.rs lines 116-120: fully unclamped. -/
def Health.subAssign (h : Health) (rhs : Int) : Health :=
  { current := h.current - rhs, max := h.max }

theorem health_addAssign_max (h : Health) (d : Int) :
    (h.addAssign d).max = h.max := rfl

theorem health_foldl_addAssign_current_le (ds : List Int) (h : Health)
    (hinv : h.current ≤ h.max) :
    (ds.foldl Health.addAssign h).current ≤ h.max := by
  induction ds generalizing h with
  | nil => exact hinv
  | cons d rest ih =>
    have : (h.addAssign d).current ≤ (h.addAssign d).max := min_le_right _ _
    simpa [Health.addAssign] using ih (h.addAssign d) this

/-- C3: a positive delta adds and clamps at max (so any sequence of applies
keeps current at or below max), a negative delta is applied unclamped and
can drive current below any bound, and is_dead holds exactly when
current ≤ 0. -/
theorem health_apply_contract (h : Health) (d e b : Int) (ds : List Int)
    (_hd : 0 < d) (he : e < 0) (hinv : h.current ≤ h.max) :
    (h.addAssign d).current = min (h.current + d) h.max ∧
    (h.addAssign d).current ≤ h.max ∧
    (ds.foldl Health.addAssign h).current ≤ h.max ∧
    (h.addAssign e).current = h.current + e ∧
    (∃ dn : Int, dn < 0 ∧ (h.addAssign dn).current < b) ∧
    (h.isDead = true ↔ h.current ≤ 0) := by
  refine ⟨rfl, min_le_right _ _, health_foldl_addAssign_current_le ds h hinv, ?_, ?_, ?_⟩
  · simp only [Health.addAssign]
    omega
  · refine ⟨min (b - h.current - 1) (-1), ?_, ?_⟩
    · omega
    · simp only [Health.addAssign]
      omega
  · simp [Health.isDead]

/-- Concrete instantiation of the C3 health contract. -/
theorem health_apply_contract_witness :
    (Health.addAssign ⟨5, 10⟩ 3).current = min ((5 : Int) + 3) 10 ∧
    (Health.addAssign ⟨5, 10⟩ 3).current ≤ 10 ∧
    (([1, 7, 9] : List Int).foldl Health.addAssign ⟨5, 10⟩).current ≤ 10 ∧
    (Health.addAssign ⟨5, 10⟩ (-2)).current = 5 + (-2) ∧
    (∃ dn : Int, dn < 0 ∧ (Health.addAssign ⟨5, 10⟩ dn).current < -100) ∧
    (Health.isDead ⟨5, 10⟩ = true ↔ (5 : Int) ≤ 0) :=
  health_apply_contract ⟨5, 10⟩ 3 (-2) (-100) [1, 7, 9]
    (by decide) (by decide) (by decide)

/-! ## Shop and wave data (src/src/shop.rs, src/src/waves.rs)

The `f32` cooldown multiplier in the shop effect vocabulary is embedded
as a rational; it only flows into multiplications and comparisons. -/

/-- ShopItemEffect, shop.rs lines 30-37. -/
inductive ShopItemEffect : Type
  | PlantTree
  | IncreaseDamage (d : Int)
  | MultiplyCooldown (m : ℚ)
  | Heal (h : Int)
  | BuildTower
  | BuildTreeSpawner
deriving DecidableEq, Repr

/-- ShopItemData, shop.rs lines 39-45. -/
structure ShopItemData : Type where
  cost : List (Item × Nat)
  effects : List ShopItemEffect
  permanent : Bool
deriving DecidableEq, Repr

/-- WaveDescriptor, waves.rs lines 55-59. -/
structure WaveDescriptor : Type where
  nb_enemies : Nat
  new_shop_items : List ShopItemData
deriving DecidableEq, Repr

/-! ## App state machine (src/src/state.rs)

The three systems registered in the Last schedule (state.rs lines 24-50)
are composed into one step function. `handle_win` is ordered before
`handle_next_wave`; `handle_loss` carries no ordering constraint, but its
state write goes through a deferred command (`commands.insert_resource`),
which is applied after the schedule runs, while the other two systems
write the `AppState` resource directly. Hence, whatever order the
scheduler picks, the loss write lands last, and its run condition
(current state not already Lost) is equivalent to the frame's initial
state not being Lost, because no system writes Lost directly during the
schedule. The step function fixes that semantics. Wave descriptors are
taken as an already-loaded asset list; enemy spawn positions are random
and engine-owned, so a spawned enemy is represented by its Body. -/

/-- Body, player.rs lines 39-44. -/
inductive Body : Type
  | Monkey
  | Robot
  | FastRobot
  | Boss
deriving DecidableEq, Repr

/-- AppState, state.rs lines 14-20. -/
inductive AppState : Type
  | Init
  | Wave (n : Nat)
  | Lost
  | Win
deriving DecidableEq, Repr

/-- Discriminator for the run condition of handle_next_wave, state.rs
line 30 (matches! on AppState::Wave). -/
def AppState.isWave : AppState → Bool
  | AppState.Wave _ => true
  | _ => false

/-- check_for_no_robots, state.rs lines 64-72: no Robot, FastRobot or
Boss body remains. -/
def checkForNoRobots (bodies : List Body) : Bool :=
  (bodies.filter fun b =>
    match b with
    | Body.Robot => true
    | Body.FastRobot => true
    | Body.Boss => true
    | Body.Monkey => false).length == 0

/-- check_for_loss, state.rs lines 165-171: no tree trunk or no player. -/
def checkForLoss (nbTrees nbPlayers : Nat) : Bool :=
  nbTrees == 0 || nbPlayers == 0

/-- reached_max_wave, state.rs lines 52-62, with the descriptor asset
loaded. -/
def reachedMaxWave (ds : List WaveDescriptor) : AppState → Bool
  | AppState.Wave w => w == ds.length - 1
  | _ => false

/-- Body picked for the i-th spawned enemy (1-based) of a batch of nb,
state.rs lines 113-120: FastRobot when the position fraction exceeds 0.7,
and the very last enemy of the last wave is the Boss. -/
def spawnedBody (isLast : Bool) (nb i : Nat) : Body :=
  if isLast = true ∧ i = nb then Body.Boss
  else if (7 : ℚ) / 10 < (i : ℚ) / (nb : ℚ) then Body.FastRobot
  else Body.Robot

/-- handle_next_wave, state.rs lines 74-138: panics unless the state is
Wave(w) (modelled none); increments the wave, indexes the descriptor list
(out of bounds panics, modelled none), spawns the enemy batch and emits
the new shop offers. -/
def handleNextWave (ds : List WaveDescriptor) :
    AppState → Option (AppState × List Body × List ShopItemData)
  | AppState.Wave w =>
    match ds.get? (w + 1) with
    | none => none
    | some d =>
      some (AppState.Wave (w + 1),
        (List.range d.nb_enemies).map
          (fun k => spawnedBody (ds.length - 1 == w + 1) d.nb_enemies (k + 1)),
        d.new_shop_items)
  | _ => none

/-- handle_win, state.rs lines 140-163: from a Wave state the AppState
resource becomes Win; any other state returns early. -/
def handleWin : AppState → AppState
  | AppState.Wave _ => AppState.Win
  | s => s

/-- One run of the Last schedule of StatePlugin::build, state.rs lines
24-50: handle_win (before handle_next_wave), handle_next_wave, and
handle_loss with its deferred state write applied last. Every system is
gated on FrameCount > 3. Returns none when a run panics. -/
def lastPhase (frame : Nat) (bodies : List Body) (nbTrees nbPlayers : Nat)
    (ds : List WaveDescriptor) (s : AppState) :
    Option (AppState × List Body × List ShopItemData) :=
  let s1 := if (decide (3 < frame) && checkForNoRobots bodies && reachedMaxWave ds s) = true
            then handleWin s else s
  (if (decide (3 < frame) && checkForNoRobots bodies && s1.isWave && !reachedMaxWave ds s1) = true
   then handleNextWave ds s1
   else some (s1, [], [])).map
    (fun r =>
      (if (decide (3 < frame) && checkForLoss nbTrees nbPlayers && !(s == AppState.Lost)) = true
       then AppState.Lost else r.1, r.2))

/-- C2 (amended): with the hostile population empty, the warm-up grace
period over, and the loss predicate not holding that tick, a Wave(n)
state steps to Win when n is the final wave index, and otherwise to
Wave(n+1), spawning exactly the next descriptor's enemy count with the
position-fraction mix rule (Boss for the very last enemy of the final
wave, FastRobot above fraction 0.7) and publishing the descriptor's new
shop offers. -/
theorem wave_progression (frame : Nat) (bodies : List Body) (nbTrees nbPlayers : Nat)
    (ds : List WaveDescriptor) (n : Nat)
    (hf : 3 < frame) (hempty : checkForNoRobots bodies = true)
    (hloss : checkForLoss nbTrees nbPlayers = false) :
    (n = ds.length - 1 → ds ≠ [] →
      lastPhase frame bodies nbTrees nbPlayers ds (AppState.Wave n) =
        some (AppState.Win, [], [])) ∧
    (∀ d, ds.get? (n + 1) = some d →
      lastPhase frame bodies nbTrees nbPlayers ds (AppState.Wave n) =
        some (AppState.Wave (n + 1),
          (List.range d.nb_enemies).map
            (fun k => spawnedBody (ds.length - 1 == n + 1) d.nb_enemies (k + 1)),
          d.new_shop_items) ∧
      ((List.range d.nb_enemies).map
        (fun k => spawnedBody (ds.length - 1 == n + 1) d.nb_enemies (k + 1))).length
        = d.nb_enemies) ∧
    (∀ (isLast : Bool) (nb i : Nat), 1 ≤ i → i ≤ nb →
      (isLast = true → i = nb → spawnedBody isLast nb i = Body.Boss) ∧
      (¬(isLast = true ∧ i = nb) →
        (spawnedBody isLast nb i = Body.FastRobot ↔ (7 : ℚ) / 10 < (i : ℚ) / (nb : ℚ)) ∧
        (spawnedBody isLast nb i = Body.Robot ↔ ¬((7 : ℚ) / 10 < (i : ℚ) / (nb : ℚ))))) := by
  have hwarm : decide (3 < frame) = true := decide_eq_true hf
  refine ⟨?_, ?_, ?_⟩
  · intro hn hne
    have hmax : reachedMaxWave ds (AppState.Wave n) = true := by
      simp [reachedMaxWave, hn]
    simp only [lastPhase, hwarm, hempty, hmax, hloss, Bool.and_true, Bool.true_and,
      Bool.and_false, Bool.false_and]
    simp [handleWin, AppState.isWave]
  · intro d hget
    have hlt : n + 1 < ds.length := (List.get?_eq_some.mp hget).1
    have hmax : reachedMaxWave ds (AppState.Wave n) = false := by
      simp only [reachedMaxWave, beq_eq_false_iff_ne, ne_eq]
      omega
    constructor
    · have hget2 : ds[n + 1]? = some d := by
        simpa [List.get?_eq_getElem?] using hget
      simp only [lastPhase, hwarm, hempty, hmax, hloss, Bool.and_true, Bool.true_and,
        Bool.and_false, Bool.false_and, Bool.not_false, if_false]
      simp [AppState.isWave, handleNextWave, hmax, hget2]
    · simp
  · intro isLast nb i h1 hnb
    constructor
    · intro hL hEq
      simp [spawnedBody, hL, hEq]
    · intro hnot
      rw [spawnedBody, if_neg hnot]
      by_cases hp : (7 : ℚ) / 10 < (i : ℚ) / (nb : ℚ)
      · simp [hp]
      · simp [hp]

/-- Concrete instantiation of the amended C2 wave progression: wave 0 of a
two-wave campaign advances to wave 1, whose two enemies are a Robot and
(as the last enemy of the final wave) the Boss. -/
theorem wave_progression_witness :
    lastPhase 4 [] 1 1 [⟨1, []⟩, ⟨2, []⟩] (AppState.Wave 0) =
      some (AppState.Wave 1, [Body.Robot, Body.Boss], []) := by
  have h := (wave_progression 4 [] 1 1 [⟨1, []⟩, ⟨2, []⟩] 0
    (by decide) (by decide) (by decide)).2.1 ⟨2, []⟩ rfl
  rw [h.1]
  norm_num [List.range_succ, spawnedBody]

/-- C2 counterexample: with the hostile population empty AND the loss
predicate holding in the same tick (all trees gone), the deferred loss
write lands after the wave advance, so the next state is Lost, not
Wave(n+1) as the claim states unconditionally. -/
theorem wave_progression_counterexample :
    lastPhase 4 [] 0 1 [⟨1, []⟩, ⟨2, []⟩] (AppState.Wave 0) =
      some (AppState.Lost, [Body.Robot, Body.Boss], []) ∧
    AppState.Lost ≠ AppState.Wave 1 := by
  constructor
  · norm_num [lastPhase, checkForNoRobots, checkForLoss, reachedMaxWave,
      AppState.isWave, handleNextWave, List.range_succ, spawnedBody]
    intro h
    exact absurd h (by decide)
  · decide

/-- C5 (amended): Lost is terminal (the whole late-tick phase leaves it
unchanged and spawns nothing), and the wave-advance and win transitions
are evaluated only from Wave states; but the loss transition is guarded
only by the state not already being Lost, so from Win it still fires:
Win stays Win only while the loss predicate is false, and becomes Lost
when it holds. -/
theorem terminal_states (frame : Nat) (bodies : List Body) (nbTrees nbPlayers : Nat)
    (ds : List WaveDescriptor)
    (hf : 3 < frame) :
    lastPhase frame bodies nbTrees nbPlayers ds AppState.Lost =
      some (AppState.Lost, [], []) ∧
    (checkForLoss nbTrees nbPlayers = false →
      lastPhase frame bodies nbTrees nbPlayers ds AppState.Win =
        some (AppState.Win, [], [])) ∧
    (checkForLoss nbTrees nbPlayers = true →
      lastPhase frame bodies nbTrees nbPlayers ds AppState.Win =
        some (AppState.Lost, [], [])) := by
  have hwarm : decide (3 < frame) = true := decide_eq_true hf
  refine ⟨?_, ?_, ?_⟩
  · simp [lastPhase, reachedMaxWave, AppState.isWave]
  · intro hloss
    simp [lastPhase, reachedMaxWave, AppState.isWave, hloss]
  · intro hloss
    simp [lastPhase, reachedMaxWave, AppState.isWave, hloss, hwarm]

/-- Concrete instantiation of the amended C5 terminal-state behaviour. -/
theorem terminal_states_witness :
    lastPhase 4 [] 0 1 [] AppState.Lost = some (AppState.Lost, [], []) ∧
    (checkForLoss 0 1 = false →
      lastPhase 4 [] 0 1 [] AppState.Win = some (AppState.Win, [], [])) ∧
    (checkForLoss 0 1 = true →
      lastPhase 4 [] 0 1 [] AppState.Win = some (AppState.Lost, [], [])) :=
  terminal_states 4 [] 0 1 [] (by decide)

/-- C5 counterexample: from Win, with the loss predicate holding (no
trees left), the loss system still runs (its only state guard is "not
already Lost") and the state becomes Lost: Win is not terminal. -/
theorem terminal_states_counterexample :
    lastPhase 4 [] 0 1 [] AppState.Win = some (AppState.Lost, [], []) ∧
    AppState.Lost ≠ AppState.Win := by
  constructor
  · decide
  · decide

/-! ## 3D vectors (glam Vec3 as used by the combat code)

Positions, directions and velocities are `f32` vectors; the combat logic
genuinely takes square roots (lengths, normalisation), so vectors are
embedded over the reals — the geometric definitions are therefore
noncomputable, and concrete instances are evaluated by simp/norm_num.
Normalising the zero vector yields NaN components in glam; in this
embedding (division by zero being zero) it yields the zero vector, which
none of the verified properties touch. -/

open scoped Classical

/-- Three-component real vector standing in for glam's Vec3. -/
@[ext]
structure Vec3 : Type where
  x : ℝ
  y : ℝ
  z : ℝ

def Vec3.add (a b : Vec3) : Vec3 := ⟨a.x + b.x, a.y + b.y, a.z + b.z⟩

def Vec3.sub (a b : Vec3) : Vec3 := ⟨a.x - b.x, a.y - b.y, a.z - b.z⟩

def Vec3.smul (c : ℝ) (v : Vec3) : Vec3 := ⟨c * v.x, c * v.y, c * v.z⟩

def Vec3.dot (a b : Vec3) : ℝ := a.x * b.x + a.y * b.y + a.z * b.z

def Vec3.lengthSq (v : Vec3) : ℝ := v.dot v

/-- Vec3::length. -/
noncomputable def Vec3.length (v : Vec3) : ℝ := Real.sqrt v.lengthSq

/-- Vec3::normalize: the vector scaled by the reciprocal of its length. -/
noncomputable def Vec3.normalize (v : Vec3) : Vec3 := Vec3.smul (1 / v.length) v

/-- dir.try_normalize().unwrap_or(Vec3::Z) as in weapon.rs line 161. -/
noncomputable def Vec3.tryNormalizeOrZ (v : Vec3) : Vec3 :=
  if v.lengthSq = 0 then ⟨0, 0, 1⟩ else v.normalize

theorem Vec3.lengthSq_nonneg (v : Vec3) : 0 ≤ v.lengthSq := by
  simp only [lengthSq, dot]
  exact add_nonneg (add_nonneg (mul_self_nonneg _) (mul_self_nonneg _))
    (mul_self_nonneg _)

theorem Vec3.lengthSq_eq_zero_iff (v : Vec3) : v.lengthSq = 0 ↔ v = ⟨0, 0, 0⟩ := by
  constructor
  · intro h
    simp only [lengthSq, dot] at h
    have hx : v.x * v.x = 0 :=
      le_antisymm (by nlinarith [mul_self_nonneg v.y, mul_self_nonneg v.z])
        (mul_self_nonneg v.x)
    have hy : v.y * v.y = 0 :=
      le_antisymm (by nlinarith [mul_self_nonneg v.x, mul_self_nonneg v.z])
        (mul_self_nonneg v.y)
    have hz : v.z * v.z = 0 :=
      le_antisymm (by nlinarith [mul_self_nonneg v.x, mul_self_nonneg v.y])
        (mul_self_nonneg v.z)
    ext
    · exact mul_self_eq_zero.mp hx
    · exact mul_self_eq_zero.mp hy
    · exact mul_self_eq_zero.mp hz
  · intro h
    subst h
    simp [lengthSq, dot]

theorem Vec3.length_nonneg (v : Vec3) : 0 ≤ v.length :=
  Real.sqrt_nonneg _

theorem Vec3.length_pos_of_ne (v : Vec3) (h : v ≠ ⟨0, 0, 0⟩) : 0 < v.length :=
  Real.sqrt_pos.mpr (lt_of_le_of_ne (Vec3.lengthSq_nonneg v)
    (fun he => h ((Vec3.lengthSq_eq_zero_iff v).mp he.symm)))

theorem Vec3.length_smul (c : ℝ) (v : Vec3) :
    (Vec3.smul c v).length = |c| * v.length := by
  have h1 : (Vec3.smul c v).lengthSq = c ^ 2 * v.lengthSq := by
    simp only [lengthSq, dot, smul]
    ring
  rw [Vec3.length, h1, Real.sqrt_mul (sq_nonneg c), Real.sqrt_sq_eq_abs, Vec3.length]

theorem Vec3.length_normalize (v : Vec3) (h : v ≠ ⟨0, 0, 0⟩) :
    v.normalize.length = 1 := by
  have hp : 0 < v.length := Vec3.length_pos_of_ne v h
  rw [Vec3.normalize, Vec3.length_smul,
    abs_of_nonneg (le_of_lt (one_div_pos.mpr hp)), one_div,
    inv_mul_cancel₀ (ne_of_gt hp)]

/-! ## Weapon cast pipeline (src/src/weapon.rs) -/

/-- WeaponType, weapon.rs lines 35-40; the Bow's projectile-asset handle
is an opaque identifier. -/
inductive WeaponType : Type
  | Axe
  | Bow (asset : Nat)
  | SledgeHammer
deriving DecidableEq, Repr

/-- WeaponType::cooldown, weapon.rs lines 54-60 (0.4, 0.6, 1.4 as exact
rationals). -/
def WeaponType.cooldown : WeaponType → ℚ
  | WeaponType.Axe => 2 / 5
  | WeaponType.Bow _ => 3 / 5
  | WeaponType.SledgeHammer => 7 / 5

/-- WeaponStats, weapon.rs lines 20-24. -/
structure WeaponStats : Type where
  cooldown_mul : ℚ
  damage_add : Int
deriving DecidableEq, Repr

/-- WeaponCooldown, weapon.rs lines 63-66. -/
structure WeaponCooldown : Type where
  time_left : ℚ
deriving DecidableEq, Repr

/-- The weapon components promote_try_cast queries on the caster,
weapon.rs line 121. -/
structure WeaponComps : Type where
  cooldown : WeaponCooldown
  weapon_type : WeaponType
  stats : WeaponStats

/-- TryCastWeaponEvent, weapon.rs lines 69-74. -/
structure TryCastWeaponEvent : Type where
  caster_entity : Nat
  target_entity : Option Nat
  dir : Vec3

/-- CastWeaponEvent, weapon.rs lines 77-83. -/
structure CastWeaponEvent : Type where
  caster_entity : Nat
  target_entity : Option Nat
  weapon_type : WeaponType
  dir : Vec3

/-- PROJ_SFX_COOLDOWN, weapon.rs line 12. -/
def PROJ_SFX_COOLDOWN : ℚ := 3 / 10

/-- update_cooldown, weapon.rs lines 106-115, on one WeaponCooldown
component: decrement by the elapsed time. -/
def updateCooldown (c : WeaponCooldown) (dt : ℚ) : WeaponCooldown :=
  ⟨c.time_left - dt⟩

/-- update_cooldown over all entities, plus its sound-cooldown tick. -/
def updateCooldownSystem (sfx : ℚ) (cooldowns : Nat → Option WeaponCooldown)
    (dt : ℚ) : ℚ × (Nat → Option WeaponCooldown) :=
  (sfx + dt, fun e => (cooldowns e).map (fun c => updateCooldown c dt))

/-- promote_try_cast, weapon.rs lines 118-164, for one TryCastWeaponEvent:
a caster without weapon components is skipped; an on-cooldown caster is
skipped; otherwise the rate-limited sound cue may fire, the cooldown is
reset to base * cooldown_mul and exactly one CastWeaponEvent is emitted.
Returns (updated weapon components, updated sound timer, emitted casts). -/
noncomputable def promoteTryCast
    (weapons : Nat → Option WeaponComps) (bodies : Nat → Option Body)
    (sfx : ℚ) (ev : TryCastWeaponEvent) :
    (Nat → Option WeaponComps) × ℚ × List CastWeaponEvent :=
  let castByMonkey := match bodies ev.caster_entity with
    | some b => b == Body.Monkey
    | none => false
  match weapons ev.caster_entity with
  | none => (weapons, sfx, [])
  | some w =>
    if 0 < w.cooldown.time_left then (weapons, sfx, [])
    else
      ((fun e => if e = ev.caster_entity then
          some { w with cooldown := ⟨w.weapon_type.cooldown * w.stats.cooldown_mul⟩ }
        else weapons e),
       (if PROJ_SFX_COOLDOWN ≤ sfx ∨ castByMonkey = true then 0 else sfx),
       [{ caster_entity := ev.caster_entity, target_entity := ev.target_entity,
          weapon_type := w.weapon_type, dir := ev.dir.tryNormalizeOrZ }])

/-- C4: a cast attempt against a strictly positive cooldown is silently
dropped (no cast-resolution event, weapon state untouched), the cooldown
being decremented only by update_cooldown's elapsed time; an attempt at
time_left ≤ 0 emits exactly one cast-resolution event and resets
time_left to the weapon's base cooldown times the caster's
cooldown_mul. -/
theorem weapon_cooldown_gate
    (weapons : Nat → Option WeaponComps) (bodies : Nat → Option Body)
    (sfx dt : ℚ) (ev : TryCastWeaponEvent) (w : WeaponComps)
    (hw : weapons ev.caster_entity = some w) :
    (0 < w.cooldown.time_left →
      promoteTryCast weapons bodies sfx ev = (weapons, sfx, [])) ∧
    (w.cooldown.time_left ≤ 0 →
      (promoteTryCast weapons bodies sfx ev).2.2 =
        [{ caster_entity := ev.caster_entity, target_entity := ev.target_entity,
           weapon_type := w.weapon_type, dir := ev.dir.tryNormalizeOrZ }] ∧
      (promoteTryCast weapons bodies sfx ev).1 ev.caster_entity =
        some { w with cooldown := ⟨w.weapon_type.cooldown * w.stats.cooldown_mul⟩ }) ∧
    (updateCooldown w.cooldown dt).time_left = w.cooldown.time_left - dt := by
  refine ⟨?_, ?_, rfl⟩
  · intro h
    simp [promoteTryCast, hw, h]
  · intro h
    have hnot : ¬ 0 < w.cooldown.time_left := not_lt.mpr h
    constructor <;> simp [promoteTryCast, hw, hnot]

/-- Concrete instantiation of the C4 cooldown gate: time_left = 1/5 > 0
drops the attempt and leaves everything unchanged. -/
theorem weapon_cooldown_gate_witness :
    promoteTryCast
      (fun e => if e = 0 then some ⟨⟨1 / 5⟩, WeaponType.Axe, ⟨1, 0⟩⟩ else none)
      (fun _ => none) (1 / 2) ⟨0, none, ⟨0, 0, 1⟩⟩ =
      ((fun e => if e = 0 then some ⟨⟨1 / 5⟩, WeaponType.Axe, ⟨1, 0⟩⟩ else none),
        1 / 2, []) :=
  (weapon_cooldown_gate
    (fun e => if e = 0 then some ⟨⟨1 / 5⟩, WeaponType.Axe, ⟨1, 0⟩⟩ else none)
    (fun _ => none) (1 / 2) 0 ⟨0, none, ⟨0, 0, 1⟩⟩
    ⟨⟨1 / 5⟩, WeaponType.Axe, ⟨1, 0⟩⟩ rfl).1 (by norm_num)

/-! ## Health event application (src/src/health.rs lines 61-68) -/

/-- ApplyHealthEvent, health.rs lines 13-18. -/
structure ApplyHealthEvent : Type where
  amount : Int
  target_entity : Nat
  caster_entity : Nat
deriving DecidableEq, Repr

/-- apply_health_events, health.rs lines 61-68: each event's target is
looked up; a missing target is skipped (the query's Err arm), otherwise
the amount is added through Health's clamped AddAssign. -/
def applyHealthEvents (healths : Nat → Option Health) :
    List ApplyHealthEvent → Nat → Option Health
  | [] => healths
  | ev :: rest =>
    match healths ev.target_entity with
    | none => applyHealthEvents healths rest
    | some h =>
      applyHealthEvents
        (fun e => if e = ev.target_entity then some (h.addAssign ev.amount) else healths e)
        rest

/-- C9: an ApplyHealthEvent whose target entity no longer exists is
silently skipped — processing the event list is the same as processing
it without that event, and a single such event changes no health value —
and a TryCastWeaponEvent whose caster no longer has weapon components is
dropped with no state change; neither is fatal (both embeddings are
total functions, with no panic arm). -/
theorem missing_reference_skip
    (healths : Nat → Option Health) (ev : ApplyHealthEvent)
    (rest : List ApplyHealthEvent)
    (weapons : Nat → Option WeaponComps) (bodies : Nat → Option Body)
    (sfx : ℚ) (tryEv : TryCastWeaponEvent)
    (hmiss : healths ev.target_entity = none)
    (hwmiss : weapons tryEv.caster_entity = none) :
    applyHealthEvents healths (ev :: rest) = applyHealthEvents healths rest ∧
    applyHealthEvents healths [ev] = healths ∧
    promoteTryCast weapons bodies sfx tryEv = (weapons, sfx, []) := by
  refine ⟨?_, ?_, ?_⟩
  · simp [applyHealthEvents, hmiss]
  · simp [applyHealthEvents, hmiss]
  · simp [promoteTryCast, hwmiss]

/-- Concrete instantiation of the C9 missing-reference behaviour: an
empty world absorbs a damage event aimed at entity 5 and a cast attempt
by entity 3. -/
theorem missing_reference_skip_witness :
    applyHealthEvents (fun _ => none) [⟨-1, 5, 2⟩] = (fun _ => none) ∧
    applyHealthEvents (fun _ => none) [⟨-1, 5, 2⟩] = (fun _ => none) ∧
    promoteTryCast (fun _ => none) (fun _ => none) 0 ⟨3, none, ⟨0, 0, 1⟩⟩ =
      ((fun _ => none), 0, []) := by
  have h := missing_reference_skip (fun _ => none) ⟨-1, 5, 2⟩ []
    (fun _ => none) (fun _ => none) 0 ⟨3, none, ⟨0, 0, 1⟩⟩ rfl rfl
  exact ⟨h.2.1, h.2.1, h.2.2⟩

/-! ## Projectiles (src/src/projectile.rs) -/

/-- HealthRoot, health.rs lines 22-25: a hitbox's reference to the
entity that owns the health value. -/
structure HealthRoot : Type where
  entity : Nat
deriving DecidableEq, Repr

/-- ProjectileAsset, projectile.rs lines 14-23. -/
structure ProjectileAsset : Type where
  speed : ℝ
  gravity : ℝ
  spread : ℝ
  damage : Int
  max_hits : Int
  model : String

/-- Projectile, projectile.rs lines 50-59 (the asset handle is an opaque
identifier). -/
structure Projectile : Type where
  hits : Int
  caster_entity : Nat
  target_entity : Option Nat
  vel : Vec3
  asset_handle : Nat
  additional_damage : Int

/-- projectile_aim, projectile.rs lines 61-78: a projectile with a live
homing target re-points its velocity from its own position toward the
target, scaled back to the old speed; a projectile without a target, or
whose target's transform is gone, is left unchanged (the rotation update
is rendering-only and not modelled). -/
noncomputable def projectileAim (transforms : Nat → Option Vec3) (pos : Vec3)
    (p : Projectile) : Projectile :=
  match p.target_entity with
  | none => p
  | some t =>
    match transforms t with
    | none => p
    | some target =>
      { p with vel := Vec3.smul p.vel.length ((target.sub pos).normalize) }

theorem vec3_sub_eq_zero_iff (a b : Vec3) : a.sub b = ⟨0, 0, 0⟩ ↔ a = b := by
  constructor
  · intro h
    have hx := congrArg Vec3.x h
    have hy := congrArg Vec3.y h
    have hz := congrArg Vec3.z h
    simp only [Vec3.sub] at hx hy hz
    ext
    · linarith
    · linarith
    · linarith
  · intro h
    subst h
    simp [Vec3.sub]

/-- C10: the per-tick aim step of a projectile whose homing target still
exists (at a position distinct from the projectile's) preserves the
Euclidean norm of the velocity, the new velocity being a nonnegative
multiple of the unit vector toward the target. -/
theorem projectile_aim_preserves_speed (transforms : Nat → Option Vec3)
    (pos : Vec3) (p : Projectile) (t : Nat) (target : Vec3)
    (ht : p.target_entity = some t) (htr : transforms t = some target)
    (hne : target ≠ pos) :
    (projectileAim transforms pos p).vel.length = p.vel.length ∧
    ∃ c : ℝ, 0 ≤ c ∧
      (projectileAim transforms pos p).vel = Vec3.smul c ((target.sub pos).normalize) := by
  have hsub : target.sub pos ≠ ⟨0, 0, 0⟩ := fun h =>
    hne ((vec3_sub_eq_zero_iff target pos).mp h)
  have haim : projectileAim transforms pos p =
      { p with vel := Vec3.smul p.vel.length ((target.sub pos).normalize) } := by
    simp only [projectileAim, ht, htr]
  constructor
  · rw [haim]
    show (Vec3.smul p.vel.length ((target.sub pos).normalize)).length = p.vel.length
    rw [Vec3.length_smul, Vec3.length_normalize _ hsub, mul_one,
      abs_of_nonneg (Vec3.length_nonneg p.vel)]
  · exact ⟨p.vel.length, Vec3.length_nonneg p.vel, by rw [haim]⟩

/-- Concrete instantiation of the C10 aim step: a projectile at the
origin homing on entity 7 at (0, 0, 3). -/
theorem projectile_aim_preserves_speed_witness :
    (projectileAim (fun e => if e = 7 then some ⟨0, 0, 3⟩ else none) ⟨0, 0, 0⟩
      ⟨0, 1, some 7, ⟨1, 2, 2⟩, 0, 0⟩).vel.length =
      (⟨0, 1, some 7, ⟨1, 2, 2⟩, 0, 0⟩ : Projectile).vel.length ∧
    ∃ c : ℝ, 0 ≤ c ∧
      (projectileAim (fun e => if e = 7 then some ⟨0, 0, 3⟩ else none) ⟨0, 0, 0⟩
        ⟨0, 1, some 7, ⟨1, 2, 2⟩, 0, 0⟩).vel =
        Vec3.smul c ((Vec3.sub ⟨0, 0, 3⟩ ⟨0, 0, 0⟩).normalize) :=
  projectile_aim_preserves_speed (fun e => if e = 7 then some ⟨0, 0, 3⟩ else none)
    ⟨0, 0, 0⟩ ⟨0, 1, some 7, ⟨1, 2, 2⟩, 0, 0⟩ 7 ⟨0, 0, 3⟩ rfl rfl
    (by intro h; have := congrArg Vec3.z h; norm_num at this)

/-- Resolution of a ray hit to the entity owning the health value,
projectile.rs lines 117-125: a vanished entity or one with neither
Health nor HealthRoot (or, in the code's match, both) yields none. -/
def resolveHitEntity (world : Nat → Option (Option Health × Option HealthRoot))
    (e : Nat) : Option Nat :=
  match world e with
  | none => none
  | some (none, some root) => some root.entity
  | some (some _, none) => some e
  | some _ => none

/-- Ray-hit callback loop of projectile::update, projectile.rs lines
110-144: per reported hit, resolve the health entity, skip the caster,
emit one health-delta event, and despawn (stopping the ray) once the
accumulated hits reach the asset's budget. Returns (events, final hit
count, despawned). -/
def projLoop (caster : Nat) (amt maxHits : Int)
    (world : Nat → Option (Option Health × Option HealthRoot)) :
    List Nat → Int → List ApplyHealthEvent × Int × Bool
  | [], hits => ([], hits, false)
  | e :: rest, hits =>
    match resolveHitEntity world e with
    | none => projLoop caster amt maxHits world rest hits
    | some he =>
      if he = caster then projLoop caster amt maxHits world rest hits
      else if maxHits ≤ hits + 1 then ([⟨amt, he, caster⟩], hits + 1, true)
      else
        match projLoop caster amt maxHits world rest (hits + 1) with
        | (evs, hf, d) => (⟨amt, he, caster⟩ :: evs, hf, d)

/-- The ray hits that resolve to a health entity other than the caster,
in engine order. -/
def projEligibleTargets (caster : Nat)
    (world : Nat → Option (Option Health × Option HealthRoot))
    (rayHits : List Nat) : List Nat :=
  (rayHits.filterMap (resolveHitEntity world)).filter (fun he => he != caster)

/-- Number of events the loop can still emit from a given hit count: the
remaining budget, but (as in the code, which emits before checking) at
least one. -/
def projHitCap (maxHits hits : Int) : Nat :=
  if maxHits - hits ≤ 1 then 1 else (maxHits - hits).toNat

theorem projLoop_eq (caster : Nat) (amt maxHits : Int)
    (world : Nat → Option (Option Health × Option HealthRoot))
    (l : List Nat) (hits : Int) :
    projLoop caster amt maxHits world l hits =
      (((projEligibleTargets caster world l).take (projHitCap maxHits hits)).map
        (fun he => ⟨amt, he, caster⟩),
       hits + ((projEligibleTargets caster world l).take (projHitCap maxHits hits)).length,
       decide (projHitCap maxHits hits ≤ (projEligibleTargets caster world l).length)) := by
  induction l generalizing hits with
  | nil =>
    have h1 : 1 ≤ projHitCap maxHits hits := by
      rw [projHitCap]; split <;> omega
    have h2 : decide (projHitCap maxHits hits ≤
        (projEligibleTargets caster world []).length) = false := by
      simp only [projEligibleTargets, List.filterMap_nil, List.filter_nil,
        List.length_nil, decide_eq_false_iff_not]
      omega
    rw [h2]
    simp [projLoop, projEligibleTargets]
  | cons e rest ih =>
    cases hres : resolveHitEntity world e with
    | none =>
      have hel : projEligibleTargets caster world (e :: rest) =
          projEligibleTargets caster world rest := by
        simp [projEligibleTargets, List.filterMap_cons, hres]
      simp only [projLoop, hres, hel]
      exact ih hits
    | some he =>
      by_cases hc : he = caster
      · have hel : projEligibleTargets caster world (e :: rest) =
            projEligibleTargets caster world rest := by
          simp [projEligibleTargets, List.filterMap_cons, hres, List.filter_cons, hc]
        simp only [projLoop, hres, if_pos hc, hel]
        exact ih hits
      · have hel : projEligibleTargets caster world (e :: rest) =
            he :: projEligibleTargets caster world rest := by
          simp [projEligibleTargets, List.filterMap_cons, hres, List.filter_cons, hc]
        by_cases hstop : maxHits ≤ hits + 1
        · have hcap1 : projHitCap maxHits hits = 1 := by
            rw [projHitCap]; split <;> omega
          have h3 : (1 : ℕ) ≤ (projEligibleTargets caster world rest).length + 1 := by
            omega
          simp only [projLoop, hres, if_neg hc, if_pos hstop, hel, hcap1,
            List.take_succ_cons, List.take_zero, List.map_cons, List.map_nil,
            List.length_cons, List.length_nil, Prod.mk.injEq]
          refine ⟨trivial, by push_cast; ring, (decide_eq_true h3).symm⟩
        · have hcap : projHitCap maxHits hits = projHitCap maxHits (hits + 1) + 1 := by
            simp only [projHitCap]
            split <;> split <;> omega
          simp only [projLoop, hres, if_neg hc, if_neg hstop, ih (hits + 1), hel, hcap,
            List.take_succ_cons, List.map_cons, List.length_cons, List.length_take,
            Prod.mk.injEq]
          refine ⟨trivial, by push_cast; ring, ?_⟩
          simp only [decide_eq_decide]
          omega

/-- projectile::update, projectile.rs lines 80-146, for one tick of one
projectile whose asset is loaded: gravity is subtracted from every
velocity component (glam subtracts a scalar componentwise), the position
advances by the new velocity, and rapier's ray along the travel segment
reports `rayHits` in engine order, which the callback folds over.
Returns (updated projectile, new position, emitted events, despawned). -/
noncomputable def projectileUpdate (p : Projectile) (asset : ProjectileAsset)
    (dt : ℝ) (pos : Vec3) (rayHits : List Nat)
    (world : Nat → Option (Option Health × Option HealthRoot)) :
    Projectile × Vec3 × List ApplyHealthEvent × Bool :=
  let vel2 := p.vel.sub (Vec3.smul (asset.gravity * dt) ⟨1, 1, 1⟩)
  let pos2 := pos.add (Vec3.smul dt vel2)
  match projLoop p.caster_entity (-asset.damage - p.additional_damage)
      asset.max_hits world rayHits p.hits with
  | (evs, hits2, despawned) =>
    ({ p with vel := vel2, hits := hits2 }, pos2, evs, despawned)

/-- C7: in a world where no entity carries both Health and a HealthRoot
(the repository only puts HealthRoot on health-less hitbox children), a
projectile tick emits exactly one health-delta event per reported
intersection that resolves — directly or through HealthRoot — to a
health entity other than the caster, up to the remaining hit budget;
each event carries amount = -(base damage + additional damage) and never
targets the caster; each event spends one unit of budget; the projectile
despawns exactly when the budget is exhausted; and health-less
intersections resolve to nothing. -/
theorem projectile_update_contract (p : Projectile) (asset : ProjectileAsset)
    (dt : ℝ) (pos : Vec3) (rayHits : List Nat)
    (world : Nat → Option (Option Health × Option HealthRoot))
    (hsep : ∀ e hp r, world e = some (hp, r) → hp = none ∨ r = none) :
    (projectileUpdate p asset dt pos rayHits world).2.2.1 =
      ((projEligibleTargets p.caster_entity world rayHits).take
        (projHitCap asset.max_hits p.hits)).map
        (fun he => ⟨-asset.damage - p.additional_damage, he, p.caster_entity⟩) ∧
    (∀ ev ∈ (projectileUpdate p asset dt pos rayHits world).2.2.1,
      ev.amount = -(asset.damage + p.additional_damage) ∧
      ev.caster_entity = p.caster_entity ∧
      ev.target_entity ≠ p.caster_entity) ∧
    (projectileUpdate p asset dt pos rayHits world).1.hits =
      p.hits + ((projectileUpdate p asset dt pos rayHits world).2.2.1).length ∧
    ((projectileUpdate p asset dt pos rayHits world).2.2.2 = true ↔
      projHitCap asset.max_hits p.hits ≤
        (projEligibleTargets p.caster_entity world rayHits).length) ∧
    (∀ e hp r, world e = some (some hp, r) → resolveHitEntity world e = some e) ∧
    (∀ e root, world e = some (none, some root) →
      resolveHitEntity world e = some root.entity) ∧
    (∀ e, world e = some (none, none) → resolveHitEntity world e = none) := by
  have hloop := projLoop_eq p.caster_entity (-asset.damage - p.additional_damage)
    asset.max_hits world rayHits p.hits
  have hupd : projectileUpdate p asset dt pos rayHits world =
      ({ p with
          vel := p.vel.sub (Vec3.smul (asset.gravity * dt) ⟨1, 1, 1⟩),
          hits := p.hits + ((projEligibleTargets p.caster_entity world rayHits).take
            (projHitCap asset.max_hits p.hits)).length },
        pos.add (Vec3.smul dt (p.vel.sub (Vec3.smul (asset.gravity * dt) ⟨1, 1, 1⟩))),
        ((projEligibleTargets p.caster_entity world rayHits).take
          (projHitCap asset.max_hits p.hits)).map
          (fun he => ⟨-asset.damage - p.additional_damage, he, p.caster_entity⟩),
        decide (projHitCap asset.max_hits p.hits ≤
          (projEligibleTargets p.caster_entity world rayHits).length)) := by
    rw [projectileUpdate, hloop]
  refine ⟨by rw [hupd], ?_, ?_, ?_, ?_, ?_, ?_⟩
  · intro ev hev
    rw [hupd] at hev
    simp only [List.mem_map] at hev
    obtain ⟨he, hhe, rfl⟩ := hev
    have hmem : he ∈ projEligibleTargets p.caster_entity world rayHits :=
      List.mem_of_mem_take hhe
    have hne : he ≠ p.caster_entity := by
      have := List.of_mem_filter hmem
      simpa using this
    exact ⟨by ring, rfl, hne⟩
  · rw [hupd]
    simp
  · rw [hupd]
    simp
  · intro e hp r hw
    rcases hsep e (some hp) r hw with h | h
    · exact absurd h (by simp)
    · subst h
      simp [resolveHitEntity, hw]
  · intro e root hw
    simp [resolveHitEntity, hw]
  · intro e hw
    simp [resolveHitEntity, hw]

/-- Concrete instantiation of the C7 projectile tick: ray hits [3, 1, 2]
where entity 1 bears Health, entity 2 is a hitbox rooting to entity 7,
and entity 3 has vanished; with budget 2 both resolvable hits are damaged
and the projectile despawns. -/
theorem projectile_update_contract_witness :
    (projectileUpdate ⟨0, 0, none, ⟨1, 0, 0⟩, 0, 1⟩ ⟨10, 0, 0, 1, 2, ""⟩ 1 ⟨0, 0, 0⟩
      [3, 1, 2]
      (fun e => if e = 1 then some (some ⟨5, 5⟩, none)
                else if e = 2 then some (none, some ⟨7⟩) else none)).2.2.1 =
      [⟨-2, 1, 0⟩, ⟨-2, 7, 0⟩] := by
  rw [(projectile_update_contract ⟨0, 0, none, ⟨1, 0, 0⟩, 0, 1⟩ ⟨10, 0, 0, 1, 2, ""⟩ 1
    ⟨0, 0, 0⟩ [3, 1, 2]
    (fun e => if e = 1 then some (some ⟨5, 5⟩, none)
              else if e = 2 then some (none, some ⟨7⟩) else none)
    (by
      intro e hp r h
      have h' : (if e = 1 then some (some (⟨5, 5⟩ : Health), (none : Option HealthRoot))
          else if e = 2 then some (none, some ⟨7⟩) else none) = some (hp, r) := h
      by_cases h1 : e = 1
      · rw [if_pos h1] at h'
        injection h' with h2
        exact Or.inr (congrArg Prod.snd h2).symm
      · by_cases h2 : e = 2
        · rw [if_neg h1, if_pos h2] at h'
          injection h' with h3
          exact Or.inl (congrArg Prod.fst h3).symm
        · rw [if_neg h1, if_neg h2] at h'
          exact absurd h' (by simp))).1]
  decide

/-! ## Melee resolution (src/src/weapon.rs, cast_axes and
cast_sledgehammer)

Rapier's intersections_with_shape with Collider::ball(axe_range) at the
caster's position is modelled as a filter over collider positions within
the ball, visited in the engine-given entity order; the per-candidate
callback is the shared loop below (the two melee systems differ only in
their base damage constant and sound constants). The sound cue is
rate-limited audio and not modelled. -/

/-- AXE_DAMAGE, weapon.rs line 194. -/
def AXE_DAMAGE : Int := 1

/-- SLEDGEHAMMER_DAMAGE, weapon.rs line 316. -/
def SLEDGEHAMMER_DAMAGE : Int := 6

/-- Candidates rapier's ball-shape query reports: entities whose collider
position lies within the query radius of the centre, in engine order. -/
noncomputable def ballQuery (colliders : Nat → Option Vec3) (entities : List Nat)
    (center : Vec3) (radius : ℝ) : List Nat :=
  entities.filter (fun e =>
    match colliders e with
    | none => false
    | some p => decide ((p.sub center).lengthSq ≤ radius ^ 2))

/-- Melee intersection callback, weapon.rs lines 198-260 (and identically
lines 320-382): skip candidates without a health-bearing transform, skip
those outside the 0.3 forward cone, skip the caster, emit one health
event per hit, and stop after MAX_HIT = 2 hits. -/
noncomputable def meleeLoop (caster : Nat) (casterPos dir : Vec3) (dmg : Int)
    (transforms : Nat → Option Vec3) : List Nat → Nat → List ApplyHealthEvent
  | [], _ => []
  | e :: rest, hits =>
    match transforms e with
    | none => meleeLoop caster casterPos dir dmg transforms rest hits
    | some hitPos =>
      if -(dir.dot ((casterPos.sub hitPos).normalize)) < 3 / 10 then
        meleeLoop caster casterPos dir dmg transforms rest hits
      else if e = caster then
        meleeLoop caster casterPos dir dmg transforms rest hits
      else if hits + 1 ≤ 1 then
        ⟨-dmg, e, caster⟩ :: meleeLoop caster casterPos dir dmg transforms rest (hits + 1)
      else [⟨-dmg, e, caster⟩]

/-- cast_axes, weapon.rs lines 167-262, for one CastWeaponEvent: casters
without transform and stats are skipped, non-Axe events are skipped,
otherwise the ball query's candidates run through the melee callback
with damage = damage_add + AXE_DAMAGE. -/
noncomputable def castAxes (ev : CastWeaponEvent)
    (casterQuery : Nat → Option (Vec3 × WeaponStats))
    (colliders : Nat → Option Vec3) (entities : List Nat)
    (transforms : Nat → Option Vec3) : List ApplyHealthEvent :=
  match casterQuery ev.caster_entity with
  | none => []
  | some (casterPos, stats) =>
    match ev.weapon_type with
    | WeaponType.Axe =>
      meleeLoop ev.caster_entity casterPos ev.dir (stats.damage_add + AXE_DAMAGE)
        transforms (ballQuery colliders entities casterPos (13 / 5)) 0
    | _ => []

/-- cast_sledgehammer, weapon.rs lines 289-384: the same behaviour with
damage = damage_add + SLEDGEHAMMER_DAMAGE. -/
noncomputable def castSledgehammer (ev : CastWeaponEvent)
    (casterQuery : Nat → Option (Vec3 × WeaponStats))
    (colliders : Nat → Option Vec3) (entities : List Nat)
    (transforms : Nat → Option Vec3) : List ApplyHealthEvent :=
  match casterQuery ev.caster_entity with
  | none => []
  | some (casterPos, stats) =>
    match ev.weapon_type with
    | WeaponType.SledgeHammer =>
      meleeLoop ev.caster_entity casterPos ev.dir (stats.damage_add + SLEDGEHAMMER_DAMAGE)
        transforms (ballQuery colliders entities casterPos (13 / 5)) 0
    | _ => []

/-- The candidates that pass the callback's cone and self checks, in
order. -/
noncomputable def meleeEligibleList (caster : Nat) (casterPos dir : Vec3)
    (transforms : Nat → Option Vec3) (candidates : List Nat) : List Nat :=
  candidates.filter (fun e =>
    match transforms e with
    | none => false
    | some hitPos =>
      !decide (-(dir.dot ((casterPos.sub hitPos).normalize)) < 3 / 10)
        && !decide (e = caster))

/-- Events the callback can still emit from a given hit count (it emits
before checking the cap, hence at least one). -/
def meleeHitCap (hits : Nat) : Nat :=
  if hits + 1 ≤ 1 then 2 else 1

theorem meleeLoop_eq (caster : Nat) (casterPos dir : Vec3) (dmg : Int)
    (transforms : Nat → Option Vec3) (l : List Nat) (hits : Nat) :
    meleeLoop caster casterPos dir dmg transforms l hits =
      ((meleeEligibleList caster casterPos dir transforms l).take (meleeHitCap hits)).map
        (fun e => ⟨-dmg, e, caster⟩) := by
  induction l generalizing hits with
  | nil => simp [meleeLoop, meleeEligibleList]
  | cons e rest ih =>
    cases htr : transforms e with
    | none =>
      have hel : meleeEligibleList caster casterPos dir transforms (e :: rest) =
          meleeEligibleList caster casterPos dir transforms rest := by
        simp [meleeEligibleList, List.filter_cons, htr]
      simp only [meleeLoop, htr, hel]
      exact ih hits
    | some hitPos =>
      by_cases hdot : -(dir.dot ((casterPos.sub hitPos).normalize)) < 3 / 10
      · have hel : meleeEligibleList caster casterPos dir transforms (e :: rest) =
            meleeEligibleList caster casterPos dir transforms rest := by
          simp [meleeEligibleList, List.filter_cons, htr, hdot]
        simp only [meleeLoop, htr, if_pos hdot, hel]
        exact ih hits
      · by_cases hcast : e = caster
        · subst hcast
          have hel : meleeEligibleList e casterPos dir transforms (e :: rest) =
              meleeEligibleList e casterPos dir transforms rest := by
            simp [meleeEligibleList, List.filter_cons, htr]
          simp only [meleeLoop, htr, if_neg hdot, if_pos rfl, hel]
          exact ih hits
        · have hel : meleeEligibleList caster casterPos dir transforms (e :: rest) =
              e :: meleeEligibleList caster casterPos dir transforms rest := by
            simp [meleeEligibleList, List.filter_cons, htr, hdot, hcast]
          by_cases hh : hits + 1 ≤ 1
          · have hcap : meleeHitCap hits = 2 := if_pos hh
            have hcap1 : meleeHitCap (hits + 1) = 1 := by
              rw [meleeHitCap]; split <;> omega
            simp only [meleeLoop, htr, if_neg hdot, if_neg hcast, if_pos hh, hel,
              ih (hits + 1), hcap, hcap1, List.take_succ_cons, List.map_cons]
          · have hcap : meleeHitCap hits = 1 := by
              rw [meleeHitCap]; split <;> omega
            simp only [meleeLoop, htr, if_neg hdot, if_neg hcast, if_neg hh, hel,
              hcap, List.take_succ_cons, List.take_zero, List.map_cons, List.map_nil]

/-- C6: a melee cast (Axe or SledgeHammer) takes its candidates from the
fixed-radius ball around the caster; of those it damages, in engine
order and up to the per-swing cap of 2, exactly the ones bearing a
health transform, inside the 0.3 forward cone, and distinct from the
caster; a candidate whose cone dot is below 0.3 (for instance exactly
behind, dot = -1) is never hit; the caster is never hit; at most 2
events are emitted; and each event carries
amount = -(base damage + damage_add). -/
theorem melee_cast_contract (ev : CastWeaponEvent)
    (casterQuery : Nat → Option (Vec3 × WeaponStats))
    (colliders : Nat → Option Vec3) (entities : List Nat)
    (transforms : Nat → Option Vec3) (casterPos : Vec3) (stats : WeaponStats)
    (hq : casterQuery ev.caster_entity = some (casterPos, stats)) :
    (ev.weapon_type = WeaponType.Axe →
      castAxes ev casterQuery colliders entities transforms =
        ((meleeEligibleList ev.caster_entity casterPos ev.dir transforms
            (ballQuery colliders entities casterPos (13 / 5))).take 2).map
          (fun e => ⟨-(stats.damage_add + AXE_DAMAGE), e, ev.caster_entity⟩)) ∧
    (ev.weapon_type = WeaponType.SledgeHammer →
      castSledgehammer ev casterQuery colliders entities transforms =
        ((meleeEligibleList ev.caster_entity casterPos ev.dir transforms
            (ballQuery colliders entities casterPos (13 / 5))).take 2).map
          (fun e => ⟨-(stats.damage_add + SLEDGEHAMMER_DAMAGE), e, ev.caster_entity⟩)) ∧
    (∀ cands e, e ∈ meleeEligibleList ev.caster_entity casterPos ev.dir transforms cands →
      e ≠ ev.caster_entity ∧ ∃ p, transforms e = some p ∧
        ¬(-(ev.dir.dot ((casterPos.sub p).normalize)) < 3 / 10)) ∧
    (∀ cands e p, transforms e = some p →
      -(ev.dir.dot ((casterPos.sub p).normalize)) < 3 / 10 →
      e ∉ meleeEligibleList ev.caster_entity casterPos ev.dir transforms cands) ∧
    (∀ e, e ∈ ballQuery colliders entities casterPos (13 / 5) →
      ∃ p, colliders e = some p ∧ (p.sub casterPos).lengthSq ≤ (13 / 5) ^ 2) ∧
    (castAxes ev casterQuery colliders entities transforms).length ≤ 2 ∧
    (castSledgehammer ev casterQuery colliders entities transforms).length ≤ 2 := by
  have hmem : ∀ cands e,
      e ∈ meleeEligibleList ev.caster_entity casterPos ev.dir transforms cands →
      e ≠ ev.caster_entity ∧ ∃ p, transforms e = some p ∧
        ¬(-(ev.dir.dot ((casterPos.sub p).normalize)) < 3 / 10) := by
    intro cands e he
    have hf := List.of_mem_filter he
    cases htr : transforms e with
    | none => rw [htr] at hf; exact absurd hf (by simp)
    | some p =>
      rw [htr] at hf
      simp only [Bool.and_eq_true, Bool.not_eq_true', decide_eq_false_iff_not] at hf
      exact ⟨hf.2, p, rfl, hf.1⟩
  have haxe : ev.weapon_type = WeaponType.Axe →
      castAxes ev casterQuery colliders entities transforms =
        ((meleeEligibleList ev.caster_entity casterPos ev.dir transforms
            (ballQuery colliders entities casterPos (13 / 5))).take 2).map
          (fun e => ⟨-(stats.damage_add + AXE_DAMAGE), e, ev.caster_entity⟩) := by
    intro hw
    simp only [castAxes, hq, hw]
    rw [meleeLoop_eq]
    rfl
  have hsledge : ev.weapon_type = WeaponType.SledgeHammer →
      castSledgehammer ev casterQuery colliders entities transforms =
        ((meleeEligibleList ev.caster_entity casterPos ev.dir transforms
            (ballQuery colliders entities casterPos (13 / 5))).take 2).map
          (fun e => ⟨-(stats.damage_add + SLEDGEHAMMER_DAMAGE), e, ev.caster_entity⟩) := by
    intro hw
    simp only [castSledgehammer, hq, hw]
    rw [meleeLoop_eq]
    rfl
  refine ⟨haxe, hsledge, hmem, ?_, ?_, ?_, ?_⟩
  · intro cands e p htr hdot hmemb
    obtain ⟨_, q, hq2, hq3⟩ := hmem cands e hmemb
    rw [htr] at hq2
    injection hq2 with hq2
    exact hq3 (hq2 ▸ hdot)
  · intro e he
    have hf := List.of_mem_filter he
    cases hcol : colliders e with
    | none => rw [hcol] at hf; exact absurd hf (by simp)
    | some p =>
      rw [hcol] at hf
      exact ⟨p, rfl, of_decide_eq_true hf⟩
  · cases hw : ev.weapon_type with
    | Axe =>
      rw [haxe hw, List.length_map, List.length_take]
      exact min_le_left _ _
    | Bow a =>
      simp [castAxes, hq, hw]
    | SledgeHammer =>
      simp [castAxes, hq, hw]
  · cases hw : ev.weapon_type with
    | SledgeHammer =>
      rw [hsledge hw, List.length_map, List.length_take]
      exact min_le_left _ _
    | Bow a =>
      simp [castSledgehammer, hq, hw]
    | Axe =>
      simp [castSledgehammer, hq, hw]

/-- Concrete instantiation of the C6 melee contract: caster 0 at the
origin swinging an axe along +z among entities 0, 1 (behind) and 2
(ahead). -/
theorem melee_cast_contract_witness :
    castAxes ⟨0, none, WeaponType.Axe, ⟨0, 0, 1⟩⟩
        (fun e => if e = 0 then some (⟨0, 0, 0⟩, ⟨1, 2⟩) else none)
        (fun e => if e = 0 then some ⟨0, 0, 0⟩
                  else if e = 1 then some ⟨0, 0, -2⟩
                  else if e = 2 then some ⟨0, 0, 2⟩ else none)
        [0, 1, 2]
        (fun e => if e = 0 then some ⟨0, 0, 0⟩
                  else if e = 1 then some ⟨0, 0, -2⟩
                  else if e = 2 then some ⟨0, 0, 2⟩ else none) =
        ((meleeEligibleList 0 ⟨0, 0, 0⟩ ⟨0, 0, 1⟩
            (fun e => if e = 0 then some ⟨0, 0, 0⟩
                      else if e = 1 then some ⟨0, 0, -2⟩
                      else if e = 2 then some ⟨0, 0, 2⟩ else none)
            (ballQuery
              (fun e => if e = 0 then some ⟨0, 0, 0⟩
                        else if e = 1 then some ⟨0, 0, -2⟩
                        else if e = 2 then some ⟨0, 0, 2⟩ else none)
              [0, 1, 2] ⟨0, 0, 0⟩ (13 / 5))).take 2).map
          (fun e => ⟨-((⟨1, 2⟩ : WeaponStats).damage_add + AXE_DAMAGE), e, 0⟩) :=
  (melee_cast_contract ⟨0, none, WeaponType.Axe, ⟨0, 0, 1⟩⟩
    (fun e => if e = 0 then some (⟨0, 0, 0⟩, ⟨1, 2⟩) else none)
    (fun e => if e = 0 then some ⟨0, 0, 0⟩
              else if e = 1 then some ⟨0, 0, -2⟩
              else if e = 2 then some ⟨0, 0, 2⟩ else none)
    [0, 1, 2]
    (fun e => if e = 0 then some ⟨0, 0, 0⟩
              else if e = 1 then some ⟨0, 0, -2⟩
              else if e = 2 then some ⟨0, 0, 2⟩ else none)
    ⟨0, 0, 0⟩ ⟨1, 2⟩ rfl).1 rfl

/-! ## Shop purchases (src/src/shop.rs, buy_items) -/

/-- BuyEvent, shop.rs lines 88-92. -/
structure BuyEvent : Type where
  buyer : Nat
  item : Nat
deriving DecidableEq, Repr

/-- The side effects a purchase emits beyond the buyer's own components:
spawn events and the heal's health-delta event (shop.rs lines 201-242). -/
inductive ShopEffectOut : Type
  | SpawnTree (pos : Vec3)
  | SpawnTower (pos : Vec3)
  | SpawnTreeSpawner (pos : Vec3)
  | HealEvent (ev : ApplyHealthEvent)

/-- apply_effect closure of buy_items, shop.rs lines 201-242: stat
effects mutate the buyer's WeaponStats when present; spawn effects fire
at the buyer's position with y zeroed; Heal emits an ApplyHealthEvent
targeting the buyer. -/
def applyShopEffect (weapons : Nat → Option WeaponStats)
    (transforms : Nat → Option Vec3) (buyer : Nat) :
    ShopItemEffect → (Nat → Option WeaponStats) × List ShopEffectOut
  | ShopItemEffect.PlantTree =>
    (weapons, match transforms buyer with
      | some p => [ShopEffectOut.SpawnTree ⟨p.x, 0, p.z⟩]
      | none => [])
  | ShopItemEffect.IncreaseDamage d =>
    (match weapons buyer with
     | some w =>
       fun e => if e = buyer then some { w with damage_add := w.damage_add + d }
                else weapons e
     | none => weapons, [])
  | ShopItemEffect.MultiplyCooldown m =>
    (match weapons buyer with
     | some w =>
       fun e => if e = buyer then some { w with cooldown_mul := w.cooldown_mul * m }
                else weapons e
     | none => weapons, [])
  | ShopItemEffect.Heal amount =>
    (weapons, [ShopEffectOut.HealEvent ⟨amount, buyer, buyer⟩])
  | ShopItemEffect.BuildTower =>
    (weapons, match transforms buyer with
      | some p => [ShopEffectOut.SpawnTower ⟨p.x, 0, p.z⟩]
      | none => [])
  | ShopItemEffect.BuildTreeSpawner =>
    (weapons, match transforms buyer with
      | some p => [ShopEffectOut.SpawnTreeSpawner ⟨p.x, 0, p.z⟩]
      | none => [])

/-- for_each over an offer's effects, shop.rs lines 258-262. -/
def applyShopEffects (weapons : Nat → Option WeaponStats)
    (transforms : Nat → Option Vec3) (buyer : Nat) :
    List ShopItemEffect → (Nat → Option WeaponStats) × List ShopEffectOut
  | [] => (weapons, [])
  | eff :: rest =>
    match applyShopEffect weapons transforms buyer eff with
    | (w1, outs1) =>
      match applyShopEffects w1 transforms buyer rest with
      | (w2, outs2) => (w2, outs1 ++ outs2)

/-- buy_items, shop.rs lines 189-266, for one BuyEvent: the offer entity
must still exist and carry ShopItem data, the buyer must have an
inventory, and spend_items over the full cost gates everything: only on
success is the (non-permanent) offer despawned and are the effects
applied. The Bool in the result says whether the offer was removed;
none models a spend_items panic propagating. -/
def buyItems (itemAlive : Nat → Bool) (shopItems : Nat → Option ShopItemData)
    (inventories : Nat → Option Inventory) (weapons : Nat → Option WeaponStats)
    (transforms : Nat → Option Vec3) (ev : BuyEvent) :
    Option ((Nat → Option Inventory) × (Nat → Option WeaponStats) ×
      Bool × List ShopEffectOut) :=
  if itemAlive ev.item = true then
    match shopItems ev.item with
    | none => some (inventories, weapons, false, [])
    | some shopItem =>
      match inventories ev.buyer with
      | none => some (inventories, weapons, false, [])
      | some inv =>
        match spendItems inv shopItem.cost with
        | none => none
        | some (false, inv2) =>
          some (fun e => if e = ev.buyer then some inv2 else inventories e,
            weapons, false, [])
        | some (true, inv2) =>
          match applyShopEffects weapons transforms ev.buyer shopItem.effects with
          | (w2, outs) =>
            some (fun e => if e = ev.buyer then some inv2 else inventories e,
              w2, !shopItem.permanent, outs)
  else some (inventories, weapons, false, [])

theorem spendItems_false_eq (inv : Inventory) (batch : List (Item × Nat))
    (inv2 : Inventory) (h : spendItems inv batch = some (false, inv2)) :
    inv2 = inv := by
  rw [spendItems] at h
  split at h
  · cases hc : spendItemsCommit inv batch with
    | none => rw [hc] at h; exact absurd h (by simp)
    | some x =>
      rw [hc] at h
      simp at h
  · injection h with h2
    exact (congrArg Prod.snd h2).symm

/-- C8: a purchase attempt against a live offer first attempts
spend_items on the offer's full cost; on success the effects are applied
and the offer is removed exactly when it is not permanent; on failure
the inventory, the weapon stats and the offer are unchanged and no
effect output is emitted. -/
theorem buy_items_contract (itemAlive : Nat → Bool)
    (shopItems : Nat → Option ShopItemData)
    (inventories : Nat → Option Inventory) (weapons : Nat → Option WeaponStats)
    (transforms : Nat → Option Vec3) (ev : BuyEvent)
    (sid : ShopItemData) (inv : Inventory)
    (halive : itemAlive ev.item = true)
    (hshop : shopItems ev.item = some sid)
    (hinv : inventories ev.buyer = some inv) :
    (∀ inv2, spendItems inv sid.cost = some (true, inv2) →
      buyItems itemAlive shopItems inventories weapons transforms ev =
        some (fun e => if e = ev.buyer then some inv2 else inventories e,
          (applyShopEffects weapons transforms ev.buyer sid.effects).1,
          !sid.permanent,
          (applyShopEffects weapons transforms ev.buyer sid.effects).2)) ∧
    (∀ inv2, spendItems inv sid.cost = some (false, inv2) →
      buyItems itemAlive shopItems inventories weapons transforms ev =
        some (inventories, weapons, false, [])) := by
  constructor
  · intro inv2 hspend
    simp only [buyItems, halive, hshop, hinv, hspend, if_pos]
  · intro inv2 hspend
    have hinv2 : inv2 = inv := spendItems_false_eq inv sid.cost inv2 hspend
    subst hinv2
    simp only [buyItems, halive, hshop, hinv, hspend, if_pos]
    have hfun : (fun e => if e = ev.buyer then some inv2 else inventories e) =
        inventories := by
      funext e
      by_cases he : e = ev.buyer
      · subst he; simp [hinv]
      · simp [he]
    rw [hfun]

/-- Concrete instantiation of the C8 purchase flow: a live heal offer
costing 2 logs bought by a player holding exactly 2 logs; the cost is
deducted (the log entry pruned to empty) and the non-permanent offer is
removed. -/
theorem buy_items_contract_witness :
    buyItems (fun i => i == 10)
      (fun i => if i = 10 then some ⟨[(Item.Log, 2)], [ShopItemEffect.Heal 5], false⟩
                else none)
      (fun e => if e = 0 then some (fun it => if it = Item.Log then some 2 else none)
                else none)
      (fun _ => none) (fun _ => none) ⟨0, 10⟩ =
      some (fun e => if e = 0 then
              some (fun j => if j = Item.Log then none
                    else (fun it => if it = Item.Log then some 2 else none) j)
            else (fun e2 => if e2 = (0 : Nat) then
                some (fun it => if it = Item.Log then some 2 else none)
              else none) e,
        (applyShopEffects (fun _ => none) (fun _ => none) 0 [ShopItemEffect.Heal 5]).1,
        !(false : Bool),
        (applyShopEffects (fun _ => none) (fun _ => none) 0 [ShopItemEffect.Heal 5]).2) :=
  (buy_items_contract (fun i => i == 10)
    (fun i => if i = 10 then some ⟨[(Item.Log, 2)], [ShopItemEffect.Heal 5], false⟩
              else none)
    (fun e => if e = 0 then some (fun it => if it = Item.Log then some 2 else none)
              else none)
    (fun _ => none) (fun _ => none) ⟨0, 10⟩
    ⟨[(Item.Log, 2)], [ShopItemEffect.Heal 5], false⟩
    (fun it => if it = Item.Log then some 2 else none)
    rfl rfl rfl).1
    (fun j => if j = Item.Log then none
      else (fun it => if it = Item.Log then some 2 else none) j) rfl

end NoComm
